import Mathlib

/-!
Shallow embedding of `src/table_dropper.py` (class `TableDropper`): a
Databricks notebook widget that lists the tables of a `catalog.schema`
namespace, lets the operator select a subset, and drops the selected
tables either in dry-run (preview) mode or for real.

The SQL executor (`spark.sql`) is modelled as a function from a statement
string to `Except detail rows`; each handler is embedded as a pure
function from the widget state (input field, dry-run flag, `self.tables`,
`self.checkboxes`) to the new state together with the list of printed
messages and the list of statements sent to the executor.
-/

/-- The single-quote character (codepoint 39), kept as a named constant so
that quote handling in the embedding mirrors the Python source's
`schema.replace("'", "\\'")`. -/
def quoteChar : Char := Char.ofNat 39

/-- The backslash character (codepoint 92). -/
def backslashChar : Char := Char.ofNat 92

/-- The single-quote character as a one-character string. -/
def quoteStr : String := String.mk [quoteChar]

/-- One row of `information_schema.tables` as consumed by `get_tables`
(`row.table_name`, `row.created`). -/
structure Row where
  table_name : String
  created : String
  deriving DecidableEq

/-- A fetched table record, `{"name": row.table_name, "created": row.created}`
in the source. -/
structure TableRecord where
  name : String
  created : String
  deriving DecidableEq

/-- An `ipywidgets.Checkbox` as used by the source: its description label and
its boolean value. -/
structure Checkbox where
  description : String
  value : Bool
  deriving DecidableEq

/-- The SQL executor collaborator (`spark.sql`): a statement string either
yields rows or fails with a detail string. -/
def SqlExec : Type := String → Except String (List Row)

/-- Embeds Python's `catalog_schema.split(".")` on the character list:
splitting on the dot character, keeping empty segments, with `[""]` for the
empty input. -/
def splitDotChars : List Char → List String
  | [] => [""]
  | c :: rest =>
    let r := splitDotChars rest
    if c = '.' then "" :: r
    else
      match r with
      | [] => [String.mk [c]]
      | h :: t => String.mk (c :: h.data) :: t

/-- Embeds Python's `str.split(".")`. -/
def splitDot (s : String) : List String := splitDotChars s.data

/-- Whitespace test matching Python's `str.strip` default set
(space, tab, newline, carriage return, vertical tab, form feed). -/
def isPyWs (c : Char) : Bool :=
  c = ' ' || c = '\t' || c = '\n' || c = '\r' || c = Char.ofNat 11 || c = Char.ofNat 12

/-- Embeds Python's `str.strip()`: drop whitespace from both ends. -/
def pyStrip (s : String) : String :=
  String.mk (((s.data.dropWhile isPyWs).reverse.dropWhile isPyWs).reverse)

/-- Embeds `schema.replace("'", "\\'")` on the character list: every
single-quote character is replaced by backslash followed by single quote. -/
def escapeChars : List Char → List Char
  | [] => []
  | c :: rest =>
    if c = quoteChar then backslashChar :: quoteChar :: escapeChars rest
    else c :: escapeChars rest

/-- Embeds `schema.replace("'", "\\'")` on strings. -/
def escapeQuotes (s : String) : String := String.mk (escapeChars s.data)

/-- The inventory query f-string of `get_tables`, with the catalog segment
interpolated unescaped and the (already escaped) schema segment interpolated
between single quotes, including the source's exact whitespace layout. -/
def inventoryQuery (catalog schemaEscaped : String) : String :=
  "\n                SELECT table_name, created\n                FROM "
    ++ catalog
    ++ ".information_schema.tables\n                WHERE table_schema = "
    ++ quoteStr
    ++ schemaEscaped
    ++ quoteStr
    ++ "\n                ORDER BY created ASC\n            "

/-- The outcome of one `get_tables` call: the returned table list, the
messages printed to the output widget, and the statements sent to the
executor. -/
structure FetchResult where
  tables : List TableRecord
  printed : List String
  calls : List String
  deriving DecidableEq

/-- Embeds `TableDropper.get_tables`: split the input on dots, reject any
segment count other than two, otherwise build the escaped inventory query,
run it, and map the rows; an executor failure is caught, printed, and turns
into an empty table list. -/
def getTables (exec : SqlExec) (catalog_schema : String) : FetchResult :=
  match splitDot catalog_schema with
  | [catalog, schema] =>
    let query := inventoryQuery catalog (escapeQuotes schema)
    match exec query with
    | .ok rows => ⟨rows.map fun r => ⟨r.table_name, r.created⟩, [], [query]⟩
    | .error e => ⟨[], ["Error listing tables: " ++ e], [query]⟩
  | _ =>
    ⟨[], ["Error: Expected " ++ quoteStr ++ "catalog.schema" ++ quoteStr ++ ", got "
            ++ quoteStr ++ catalog_schema ++ quoteStr], []⟩

/-- The mutable widget state of a `TableDropper` instance: the text of the
`catalog_schema_input` field, the `dry_run_checkbox` value, `self.tables`,
`self.checkboxes`, and the `drop_btn.disabled` flag. -/
structure AppState where
  inputValue : String
  dryRun : Bool
  tables : List TableRecord
  checkboxes : List Checkbox
  deriving DecidableEq

/-- The state set up by `TableDropper.__init__`: empty input, dry run on,
no tables, no checkboxes. -/
def initialAppState : AppState := ⟨"", true, [], []⟩

/-- The checkbox description built by `on_load_click`:
`f"{t['name']} ({t['created']})"`. -/
def descOf (t : TableRecord) : String := t.name ++ " (" ++ t.created ++ ")"

/-- Embeds `TableDropper.on_load_click`: strip the input, bail out on an
empty string, otherwise fetch the tables, store them in `self.tables`, and
only when the fetch returned at least one row rebuild `self.checkboxes`
(one unselected checkbox per row) and re-enable the drop button. Returns
the new state and the printed messages. -/
def onLoadClick (exec : SqlExec) (s : AppState) : AppState × List String :=
  let cs := pyStrip s.inputValue
  if cs = "" then (s, ["Please enter a valid catalog.schema"])
  else
    let r := getTables exec cs
    let s1 : AppState := { s with tables := r.tables }
    if r.tables = [] then
      (s1, ("Loading tables from " ++ cs ++ "...") :: r.printed
             ++ ["No tables found or error occurred."])
    else
      ({ s1 with checkboxes := r.tables.map fun t => ⟨descOf t, false⟩ },
       ("Loading tables from " ++ cs ++ "...") :: r.printed
         ++ ["Found " ++ toString r.tables.length ++ " tables."])

/-- The operator typing a new value into the `catalog_schema_input` field. -/
def setInput (v : String) (s : AppState) : AppState := { s with inputValue := v }

/-- The operator toggling the `dry_run_checkbox`. -/
def setDryRun (v : Bool) (s : AppState) : AppState := { s with dryRun := v }

/-- Set the value of the checkbox at a given position, keeping every other
checkbox unchanged (the operator clicking one table checkbox). -/
def setCheckboxValue : List Checkbox → Nat → Bool → List Checkbox
  | [], _, _ => []
  | cb :: rest, 0, v => { cb with value := v } :: rest
  | cb :: rest, Nat.succ i, v => cb :: setCheckboxValue rest i v

/-- The operator clicking the checkbox at position `i`. -/
def toggleCheckbox (i : Nat) (v : Bool) (s : AppState) : AppState :=
  { s with checkboxes := setCheckboxValue s.checkboxes i v }

/-- Embeds `TableDropper.on_select_all_change`: set every checkbox value. -/
def onSelectAllChange (v : Bool) (s : AppState) : AppState :=
  { s with checkboxes := s.checkboxes.map fun cb => { cb with value := v } }

/-- The drop statement built by `on_drop_click`:
`f"DROP TABLE IF EXISTS {catalog_schema}.{table}"`. -/
def dropStmt (ns t : String) : String := "DROP TABLE IF EXISTS " ++ ns ++ "." ++ t

/-- Embeds the `selected_tables` list comprehension of `on_drop_click`:
zip `self.checkboxes` with `self.tables` and keep the names of the rows
whose checkbox is ticked, in inventory order. -/
def selectedTables (s : AppState) : List String :=
  (s.checkboxes.zip s.tables).filterMap fun p =>
    if p.1.value then some p.2.name else none

/-- Per-table outcome of a drop request: the printed preview line in dry-run
mode, `Dropped` on executor success, `Failed(detail)` on executor failure. -/
inductive DropStatus where
  | previewed (line : String)
  | dropped
  | failed (detail : String)
  deriving DecidableEq

/-- One entry of the drop outcome: the table name with its status. -/
structure DropEntry where
  table_name : String
  status : DropStatus
  deriving DecidableEq

/-- The overall result of one `on_drop_click` call: the inconsistent-state
bail-out, the empty-selection bail-out, or the per-table outcome list. -/
inductive DropResult where
  | inconsistent
  | noSelection
  | done (entries : List DropEntry)
  deriving DecidableEq

/-- Embeds the `for table in selected_tables` loop of `on_drop_click`:
for each selected name, in order, either record the dry-run preview line
(no executor call), or send the drop statement to the executor and record
`dropped` or `failed` accordingly, continuing with the rest of the list in
either case. Returns the outcome entries and the statements sent. -/
def dropLoop (exec : SqlExec) (ns : String) (isDryRun : Bool) :
    List String → List DropEntry × List String
  | [] => ([], [])
  | t :: rest =>
    let r := dropLoop exec ns isDryRun rest
    if isDryRun then
      (⟨t, .previewed ("[Dry Run] " ++ dropStmt ns t ++ ";")⟩ :: r.1, r.2)
    else
      match exec (dropStmt ns t) with
      | .ok _ => (⟨t, .dropped⟩ :: r.1, dropStmt ns t :: r.2)
      | .error e => (⟨t, .failed e⟩ :: r.1, dropStmt ns t :: r.2)

/-- Embeds `TableDropper.on_drop_click`: re-read and strip the input field,
bail out when `len(self.checkboxes) != len(self.tables)`, compute the
selected names, bail out when none is selected, then run the drop loop in
the mode given by the dry-run checkbox. Returns the result and the
statements sent to the executor. -/
def onDropClick (exec : SqlExec) (s : AppState) : DropResult × List String :=
  let ns := pyStrip s.inputValue
  if s.checkboxes.length ≠ s.tables.length then (.inconsistent, [])
  else
    let sel := selectedTables s
    if sel = [] then (.noSelection, [])
    else
      let r := dropLoop exec ns s.dryRun sel
      (.done r.1, r.2)

/-- The states of a `TableDropper` instance reachable from `__init__` by
the serialized operator actions: loading, editing the input field,
toggling the dry-run flag, clicking one table checkbox, and the
select-all handler (`on_drop_click` does not mutate this state). -/
inductive Reach : AppState → Prop where
  | base : Reach initialAppState
  | load (exec : SqlExec) {s : AppState} : Reach s → Reach (onLoadClick exec s).1
  | edit (v : String) {s : AppState} : Reach s → Reach (setInput v s)
  | mode (v : Bool) {s : AppState} : Reach s → Reach (setDryRun v s)
  | tick (i : Nat) (v : Bool) {s : AppState} : Reach s → Reach (toggleCheckbox i v s)
  | selAll (v : Bool) {s : AppState} : Reach s → Reach (onSelectAllChange v s)


set_option maxRecDepth 4000

/-- Scans a character list and checks that every single-quote character
occurs as the second half of a backslash-quote pair: a quote at the head,
or a quote not consumed together with a preceding backslash, fails. -/
def quotesEscaped : List Char → Bool
  | [] => true
  | [c] => !(c == quoteChar)
  | c :: c2 :: rest =>
    if c = quoteChar then false
    else if c = backslashChar ∧ c2 = quoteChar then quotesEscaped rest
    else quotesEscaped (c2 :: rest)

/-- A string occurs verbatim inside another string. -/
def occursIn (needle hay : String) : Prop := ∃ p q, hay = p ++ needle ++ q

/-- The per-table entry recorded by the execute branch of the drop loop:
`dropped` when the executor accepts the statement, `failed detail` when it
raises. -/
def execEntry (exec : SqlExec) (ns t : String) : DropEntry :=
  match exec (dropStmt ns t) with
  | .ok _ => ⟨t, .dropped⟩
  | .error e => ⟨t, .failed e⟩

theorem strAppendAssoc (a b c : String) : a ++ b ++ c = a ++ (b ++ c) := by
  cases a with | mk da => cases b with | mk db => cases c with | mk dc =>
  show String.mk (da ++ db ++ dc) = String.mk (da ++ (db ++ dc))
  rw [List.append_assoc]

theorem escapeChars_head_ne_quote (l : List Char) (t : List Char) :
    escapeChars l ≠ quoteChar :: t := by
  cases l with
  | nil => simp [escapeChars]
  | cons c rest =>
    by_cases hc : c = quoteChar
    · simp only [escapeChars, if_pos hc]
      intro h
      injection h with h1 _
      exact absurd h1 (by decide)
    · simp only [escapeChars, if_neg hc]
      intro h
      injection h with h1 _
      exact hc h1

theorem quotesEscaped_escapeChars (l : List Char) :
    quotesEscaped (escapeChars l) = true := by
  induction l with
  | nil => rfl
  | cons c rest ih =>
    by_cases hc : c = quoteChar
    · simp only [escapeChars, if_pos hc]
      simpa [quotesEscaped, show backslashChar ≠ quoteChar by decide] using ih
    · simp only [escapeChars, if_neg hc]
      cases he : escapeChars rest with
      | nil =>
        simp [quotesEscaped, hc]
      | cons d t =>
        have hd : d ≠ quoteChar := fun h =>
          escapeChars_head_ne_quote rest t (h ▸ he)
        have hstep : quotesEscaped (c :: d :: t) = quotesEscaped (d :: t) := by
          simp [quotesEscaped, hc, hd]
        rw [hstep, ← he]
        exact ih

theorem dropLoop_dry (exec : SqlExec) (ns : String) (l : List String) :
    dropLoop exec ns true l
      = (l.map fun t => ⟨t, .previewed ("[Dry Run] " ++ dropStmt ns t ++ ";")⟩, []) := by
  induction l with
  | nil => rfl
  | cons t rest ih => simp [dropLoop, ih]

theorem dropLoop_execute (exec : SqlExec) (ns : String) (l : List String) :
    dropLoop exec ns false l = (l.map (execEntry exec ns), l.map (dropStmt ns)) := by
  induction l with
  | nil => rfl
  | cons t rest ih =>
    simp only [dropLoop, ih]
    cases h : exec (dropStmt ns t) <;> simp [execEntry, h]

theorem zipSelect_sublist (cbs : List Checkbox) (ts : List TableRecord) :
    List.Sublist
      ((cbs.zip ts).filterMap fun p => if p.1.value then some p.2.name else none)
      (ts.map TableRecord.name) := by
  induction cbs generalizing ts with
  | nil => simp
  | cons cb rest ih =>
    cases ts with
    | nil => simp
    | cons t trest =>
      simp only [List.zip_cons_cons, List.map_cons]
      cases hv : cb.value with
      | true =>
        have hstep : List.filterMap
            (fun p : Checkbox × TableRecord =>
              if p.1.value = true then some p.2.name else none)
            ((cb, t) :: rest.zip trest)
            = t.name :: List.filterMap
                (fun p : Checkbox × TableRecord =>
                  if p.1.value = true then some p.2.name else none)
                (rest.zip trest) := by
          simp [hv]
        rw [hstep]
        exact List.Sublist.cons₂ _ (ih trest)
      | false =>
        have hstep : List.filterMap
            (fun p : Checkbox × TableRecord =>
              if p.1.value = true then some p.2.name else none)
            ((cb, t) :: rest.zip trest)
            = List.filterMap
                (fun p : Checkbox × TableRecord =>
                  if p.1.value = true then some p.2.name else none)
                (rest.zip trest) := by
          simp [hv]
        rw [hstep]
        exact List.Sublist.cons _ (ih trest)

theorem setCheckboxValue_map_description (l : List Checkbox) (i : Nat) (v : Bool) :
    (setCheckboxValue l i v).map Checkbox.description = l.map Checkbox.description := by
  induction l generalizing i with
  | nil => rfl
  | cons cb rest ih =>
    cases i with
    | zero => rfl
    | succ j => simp only [setCheckboxValue, List.map_cons, ih]

/-- Case split of `onLoadClick` on the resulting state: an empty (stripped)
input leaves the state unchanged; a fetch that yields no tables stores the
empty inventory but keeps the previous checkboxes; a fetch that yields
tables stores them and rebuilds the checkboxes, one unselected flag per
row. -/
theorem onLoadClick_cases (exec : SqlExec) (s : AppState) :
    (onLoadClick exec s).1 = s
    ∨ (onLoadClick exec s).1 = { s with tables := [] }
    ∨ ∃ ts, ts ≠ [] ∧ (onLoadClick exec s).1
        = { s with tables := ts, checkboxes := ts.map fun t => ⟨descOf t, false⟩ } := by
  unfold onLoadClick
  by_cases h1 : pyStrip s.inputValue = ""
  · left
    simp [h1]
  · by_cases h2 : (getTables exec (pyStrip s.inputValue)).tables = []
    · right; left
      simp [h1, h2]
    · right; right
      exact ⟨(getTables exec (pyStrip s.inputValue)).tables, h2, by simp [h1, h2]⟩

/-- Whenever the checkbox list and the table list have equal lengths, the
checkbox labels are exactly the labels generated from the current tables. -/
def selectionAligned (s : AppState) : Prop :=
  s.checkboxes.length = s.tables.length →
    s.checkboxes.map Checkbox.description = s.tables.map descOf

theorem selectionAligned_toggle {s : AppState} (ih : selectionAligned s)
    (i : Nat) (v : Bool) : selectionAligned (toggleCheckbox i v s) := by
  intro hlen
  have hmap := setCheckboxValue_map_description s.checkboxes i v
  have h1 : (setCheckboxValue s.checkboxes i v).length = s.checkboxes.length := by
    have := congrArg List.length hmap
    simpa using this
  show (setCheckboxValue s.checkboxes i v).map Checkbox.description
      = s.tables.map descOf
  rw [hmap]
  apply ih
  rw [← h1]
  exact hlen

theorem selectionAligned_selAll {s : AppState} (ih : selectionAligned s)
    (v : Bool) : selectionAligned (onSelectAllChange v s) := by
  intro hlen
  show ((s.checkboxes.map fun cb => { cb with value := v }).map Checkbox.description)
      = s.tables.map descOf
  rw [List.map_map]
  apply ih
  have : (s.checkboxes.map fun cb => { cb with value := v }).length
      = s.checkboxes.length := by simp
  rw [← this]
  exact hlen

/-- The selection/inventory alignment invariant holds in every reachable
state of the widget. -/
theorem reach_selectionAligned {s : AppState} (h : Reach s) : selectionAligned s := by
  induction h with
  | base => intro _; rfl
  | load exec hs ih =>
    rename_i s0
    rcases onLoadClick_cases exec s0 with hcase | hcase | ⟨ts, _, hcase⟩
    · rw [hcase]; exact ih
    · rw [hcase]
      intro hlen
      simp only [List.length_nil] at hlen
      have hcb := List.length_eq_zero.mp hlen
      show s0.checkboxes.map Checkbox.description = List.map descOf []
      simp [hcb]
    · rw [hcase]
      intro _
      show (ts.map fun t => ⟨descOf t, false⟩).map Checkbox.description
          = ts.map descOf
      rw [List.map_map]
      rfl
  | edit v hs ih => exact ih
  | mode v hs ih => exact ih
  | tick i v hs ih => exact selectionAligned_toggle ih i v
  | selAll v hs ih => exact selectionAligned_selAll ih v

theorem onDropClick_of_len_ne (exec : SqlExec) (s : AppState)
    (h : s.checkboxes.length ≠ s.tables.length) :
    onDropClick exec s = (.inconsistent, []) := by
  simp [onDropClick, h]

theorem onDropClick_of_no_selection (exec : SqlExec) (s : AppState)
    (h1 : s.checkboxes.length = s.tables.length)
    (h2 : selectedTables s = []) :
    onDropClick exec s = (.noSelection, []) := by
  simp [onDropClick, h1, h2]

theorem onDropClick_of_dry (exec : SqlExec) (s : AppState)
    (h1 : s.checkboxes.length = s.tables.length)
    (h2 : selectedTables s ≠ [])
    (h3 : s.dryRun = true) :
    onDropClick exec s
      = (.done ((selectedTables s).map fun t =>
            ⟨t, .previewed ("[Dry Run] " ++ dropStmt (pyStrip s.inputValue) t ++ ";")⟩),
         []) := by
  simp [onDropClick, h1, h2, h3, dropLoop_dry]

theorem onDropClick_of_execute (exec : SqlExec) (s : AppState)
    (h1 : s.checkboxes.length = s.tables.length)
    (h2 : selectedTables s ≠ [])
    (h3 : s.dryRun = false) :
    onDropClick exec s
      = (.done ((selectedTables s).map (execEntry exec (pyStrip s.inputValue))),
         (selectedTables s).map (dropStmt (pyStrip s.inputValue))) := by
  simp [onDropClick, h1, h2, h3, dropLoop_execute]

/-- An executor that accepts every statement and returns no rows. -/
def execOkEmpty : SqlExec := fun _ => .ok []

/-- An executor that returns one inventory row, `t1` created 2023-01-01. -/
def execOneTable : SqlExec := fun _ => .ok [⟨"t1", "2023-01-01"⟩]

/-- An executor that fails every statement with detail `boom`. -/
def execBoom : SqlExec := fun _ => .error "boom"

/-- An executor that fails exactly the drop statement for `c.s.t1` with
detail `boom` and accepts everything else. -/
def execFailT1 : SqlExec := fun q =>
  if q = "DROP TABLE IF EXISTS c.s.t1" then .error "boom" else .ok []

/-- C1: for every non-empty selection in a length-consistent state, running
`on_drop_click` with the dry-run flag set makes zero calls to the SQL
executor and produces one outcome entry per selected table, in selection
order, each carrying the well-formed statement text
`DROP TABLE IF EXISTS <namespace>.<table>` in its preview line; and the
preview branch is unconditionally side-effect-free on the executor: with
the dry-run flag set, no state at all leads to an executor call. -/
theorem c1_preview_mode_pure :
    (∀ (exec : SqlExec) (s : AppState), s.dryRun = true →
      s.checkboxes.length = s.tables.length →
      selectedTables s ≠ [] →
      onDropClick exec s
        = (.done ((selectedTables s).map fun t =>
            ⟨t, .previewed ("[Dry Run] " ++ dropStmt (pyStrip s.inputValue) t ++ ";")⟩),
           []))
    ∧ (∀ (exec : SqlExec) (s : AppState), s.dryRun = true →
        (onDropClick exec s).2 = []) := by
  constructor
  · intro exec s h3 h1 h2
    exact onDropClick_of_dry exec s h1 h2 h3
  · intro exec s h3
    by_cases h1 : s.checkboxes.length = s.tables.length
    · by_cases h2 : selectedTables s = []
      · rw [onDropClick_of_no_selection exec s h1 h2]
      · rw [onDropClick_of_dry exec s h1 h2 h3]
    · rw [onDropClick_of_len_ne exec s h1]

/-- Witness for C1 at a concrete state: one table selected, dry run on,
an always-failing executor; the preview outcome carries the statement text
and no executor call happens. -/
theorem c1_preview_mode_pure_witness :
    onDropClick execBoom
        ⟨"c.s", true, [⟨"t1", "2023-01-01"⟩], [⟨"t1 (2023-01-01)", true⟩]⟩
      = (.done [⟨"t1", .previewed "[Dry Run] DROP TABLE IF EXISTS c.s.t1;"⟩], []) := by
  have h := c1_preview_mode_pure.1 execBoom
      ⟨"c.s", true, [⟨"t1", "2023-01-01"⟩], [⟨"t1 (2023-01-01)", true⟩]⟩
      rfl (by decide) (by decide)
  exact h.trans (by decide)

/-- C2: in execute mode the orchestrator issues exactly one conditional
drop statement per selected table, in order, and an executor failure for
one table yields a `failed(detail)` entry while processing continues; in
particular with two selected tables, the first drop failing and the second
succeeding, the outcome is `[failed, dropped]` in order and the executor is
called exactly twice. -/
theorem c2_execute_partial_failure :
    (∀ (exec : SqlExec) (s : AppState), s.dryRun = false →
      s.checkboxes.length = s.tables.length →
      selectedTables s ≠ [] →
      (onDropClick exec s).2
          = (selectedTables s).map (dropStmt (pyStrip s.inputValue))
      ∧ (onDropClick exec s).1
          = .done ((selectedTables s).map (execEntry exec (pyStrip s.inputValue))))
    ∧ (∀ (exec : SqlExec) (inp d1 d2 err : String) (T1 T2 : TableRecord)
        (rows : List Row),
        exec (dropStmt (pyStrip inp) T1.name) = .error err →
        exec (dropStmt (pyStrip inp) T2.name) = .ok rows →
        onDropClick exec ⟨inp, false, [T1, T2], [⟨d1, true⟩, ⟨d2, true⟩]⟩
          = (.done [⟨T1.name, .failed err⟩, ⟨T2.name, .dropped⟩],
             [dropStmt (pyStrip inp) T1.name, dropStmt (pyStrip inp) T2.name])) := by
  constructor
  · intro exec s h3 h1 h2
    rw [onDropClick_of_execute exec s h1 h2 h3]
    exact ⟨rfl, rfl⟩
  · intro exec inp d1 d2 err T1 T2 rows hfail hok
    have hsel : selectedTables ⟨inp, false, [T1, T2], [⟨d1, true⟩, ⟨d2, true⟩]⟩
        = [T1.name, T2.name] := rfl
    have h := onDropClick_of_execute exec
        ⟨inp, false, [T1, T2], [⟨d1, true⟩, ⟨d2, true⟩]⟩
        rfl (by rw [hsel]; simp) rfl
    rw [hsel] at h
    rw [h]
    simp [execEntry, hfail, hok]

/-- Witness for C2 at a concrete state: tables `t1`, `t2` both selected,
executor failing exactly on `t1`; outcome is `[failed, dropped]` and two
statements are sent. -/
theorem c2_execute_partial_failure_witness :
    onDropClick execFailT1
        ⟨"c.s", false, [⟨"t1", "a"⟩, ⟨"t2", "b"⟩], [⟨"d1", true⟩, ⟨"d2", true⟩]⟩
      = (.done [⟨"t1", .failed "boom"⟩, ⟨"t2", .dropped⟩],
         ["DROP TABLE IF EXISTS c.s.t1", "DROP TABLE IF EXISTS c.s.t2"]) := by
  have h := c2_execute_partial_failure.2 execFailT1 "c.s" "d1" "d2" "boom"
      ⟨"t1", "a"⟩ ⟨"t2", "b"⟩ [] rfl rfl
  exact h.trans (by decide)

/-- C9: in a length-consistent state with an empty selection, a drop click
returns immediately with the dedicated no-selection signal and an empty
outcome, making zero executor calls, in either mode; and that signal is
distinguishable from a successful empty outcome. -/
theorem c9_empty_selection_noop :
    (∀ (exec : SqlExec) (s : AppState),
      s.checkboxes.length = s.tables.length →
      selectedTables s = [] →
      onDropClick exec s = (.noSelection, []))
    ∧ DropResult.noSelection ≠ DropResult.done [] := by
  constructor
  · intro exec s h1 h2
    exact onDropClick_of_no_selection exec s h1 h2
  · decide

/-- Witness for C9 at the freshly constructed widget state. -/
theorem c9_empty_selection_noop_witness :
    onDropClick execOkEmpty initialAppState = (.noSelection, []) :=
  c9_empty_selection_noop.1 execOkEmpty initialAppState rfl rfl

/-- C3: before any drop statement is issued the selection/inventory
consistency is checked: in every reachable widget state, whenever the set
of selection keys (the checkbox labels) does not equal the set of labels of
the current inventory, the drop request fails whole with the
inconsistent-state result and no statement is sent to the executor. -/
theorem c3_consistency_checked_before_drop (exec : SqlExec) (s : AppState)
    (hreach : Reach s)
    (hkeys : (s.checkboxes.map Checkbox.description).toFinset
        ≠ (s.tables.map descOf).toFinset) :
    onDropClick exec s = (.inconsistent, []) := by
  have halign := reach_selectionAligned hreach
  have hlen : s.checkboxes.length ≠ s.tables.length := fun hl =>
    hkeys (by rw [halign hl])
  exact onDropClick_of_len_ne exec s hlen

/-- Witness for C3: load inventory `[t1]` under `a.x`, then suffer a failing
re-fetch (which empties the inventory but keeps the stale checkbox); the
key sets now differ and the drop click bails out without any executor
call. -/
theorem c3_consistency_checked_before_drop_witness :
    onDropClick execOkEmpty
        (onLoadClick execBoom
          (onLoadClick execOneTable (setInput "a.x" initialAppState)).1).1
      = (.inconsistent, []) :=
  c3_consistency_checked_before_drop execOkEmpty _
    (Reach.load execBoom (Reach.load execOneTable (Reach.edit "a.x" Reach.base)))
    (by decide)

/-- C8: the selected names are the checkbox-filtered table names in
inventory order (a sublist of the inventory's name list); in execute mode
outcomes and statements are produced strictly in that order; and in the
end-to-end scenario (namespace `my_catalog.my_schema`, inventory
`[t1, t2]`, only `t1` selected, execute mode) exactly one statement
`DROP TABLE IF EXISTS my_catalog.my_schema.t1` is issued and the outcome is
`[⟨t1, dropped⟩]`. -/
theorem c8_ordering_end_to_end :
    (∀ s : AppState,
      List.Sublist (selectedTables s) (s.tables.map TableRecord.name))
    ∧ (∀ (exec : SqlExec) (s : AppState), s.dryRun = false →
        s.checkboxes.length = s.tables.length →
        selectedTables s ≠ [] →
        ∃ es, onDropClick exec s
            = (.done es, (selectedTables s).map (dropStmt (pyStrip s.inputValue)))
          ∧ es.map DropEntry.table_name = selectedTables s)
    ∧ (∀ (exec : SqlExec) (rows : List Row),
        exec "DROP TABLE IF EXISTS my_catalog.my_schema.t1" = .ok rows →
        onDropClick exec
          ⟨"my_catalog.my_schema", false,
           [⟨"t1", "2023-01-01"⟩, ⟨"t2", "2023-01-02"⟩],
           [⟨"t1 (2023-01-01)", true⟩, ⟨"t2 (2023-01-02)", false⟩]⟩
          = (.done [⟨"t1", .dropped⟩],
             ["DROP TABLE IF EXISTS my_catalog.my_schema.t1"])) := by
  refine ⟨fun s => zipSelect_sublist s.checkboxes s.tables, ?_, ?_⟩
  · intro exec s h3 h1 h2
    refine ⟨(selectedTables s).map (execEntry exec (pyStrip s.inputValue)),
      onDropClick_of_execute exec s h1 h2 h3, ?_⟩
    have hname : ∀ t, (execEntry exec (pyStrip s.inputValue) t).table_name = t := by
      intro t
      unfold execEntry
      cases exec (dropStmt (pyStrip s.inputValue) t) <;> rfl
    have hcomp : DropEntry.table_name ∘ execEntry exec (pyStrip s.inputValue) = id := by
      funext t
      exact hname t
    rw [List.map_map, hcomp, List.map_id]
  · intro exec rows hok
    have hstmt : dropStmt (pyStrip "my_catalog.my_schema") "t1"
        = "DROP TABLE IF EXISTS my_catalog.my_schema.t1" := by decide
    have hsel : selectedTables
        ⟨"my_catalog.my_schema", false,
         [⟨"t1", "2023-01-01"⟩, ⟨"t2", "2023-01-02"⟩],
         [⟨"t1 (2023-01-01)", true⟩, ⟨"t2 (2023-01-02)", false⟩]⟩ = ["t1"] := by decide
    have h := onDropClick_of_execute exec
        ⟨"my_catalog.my_schema", false,
         [⟨"t1", "2023-01-01"⟩, ⟨"t2", "2023-01-02"⟩],
         [⟨"t1 (2023-01-01)", true⟩, ⟨"t2 (2023-01-02)", false⟩]⟩
        rfl (by rw [hsel]; simp) rfl
    rw [hsel] at h
    rw [h, List.map_cons, List.map_cons, List.map_nil, List.map_nil, hstmt]
    have he : execEntry exec (pyStrip "my_catalog.my_schema") "t1"
        = ⟨"t1", .dropped⟩ := by
      unfold execEntry
      rw [hstmt, hok]
    rw [he]

/-- Witness for C8 with an always-accepting executor. -/
theorem c8_ordering_end_to_end_witness :
    onDropClick execOkEmpty
        ⟨"my_catalog.my_schema", false,
         [⟨"t1", "2023-01-01"⟩, ⟨"t2", "2023-01-02"⟩],
         [⟨"t1 (2023-01-01)", true⟩, ⟨"t2 (2023-01-02)", false⟩]⟩
      = (.done [⟨"t1", .dropped⟩],
         ["DROP TABLE IF EXISTS my_catalog.my_schema.t1"]) :=
  c8_ordering_end_to_end.2.2 execOkEmpty [] rfl

/-- C10: the namespace qualifying the drop statements is re-read from the
input field at drop time, without re-validating the two-segment format and
without checking it against the namespace the inventory was fetched from:
after loading inventory `[t1]` under `a.x`, editing the field to `b.y`
(or to the one-segment `nodot`), selecting `t1`, and clicking drop in
execute mode, the consistency check does not fire and the statement is
issued against the edited namespace while the selection refers to the
`a.x` inventory. -/
theorem c10_namespace_reread_at_drop_time :
    onDropClick execOkEmpty
        (toggleCheckbox 0 true (setDryRun false (setInput "b.y"
          (onLoadClick execOneTable (setInput "a.x" initialAppState)).1)))
      = (.done [⟨"t1", .dropped⟩], ["DROP TABLE IF EXISTS b.y.t1"])
    ∧ onDropClick execOkEmpty
        (toggleCheckbox 0 true (setDryRun false (setInput "nodot"
          (onLoadClick execOneTable (setInput "a.x" initialAppState)).1)))
      = (.done [⟨"t1", .dropped⟩], ["DROP TABLE IF EXISTS nodot.t1"])
    ∧ (onLoadClick execOneTable (setInput "a.x" initialAppState)).1.tables
      = [⟨"t1", "2023-01-01"⟩]
    ∧ (splitDot "nodot").length ≠ 2 :=
  ⟨by decide, by decide, by decide, by decide⟩

/-- Counterexample to C4: the input `"."` splits into two segments that are
both empty, yet `get_tables` does not fail with the invalid-format error:
no error message is printed and an inventory query (with empty catalog and
schema) is sent to the executor. -/
theorem c4_counterexample :
    (getTables execOkEmpty ".").calls ≠ [] ∧ (getTables execOkEmpty ".").printed = [] :=
  ⟨by decide, by decide⟩

/-- C4 as amended: namespace resolution succeeds exactly when the raw
string splits on the dot into exactly two segments, which may be empty:
`main.default` resolves to segments `main` and `default`, and `main`,
`a.b.c`, `""` fail with the invalid-format message, but segment emptiness
is not checked. -/
theorem c4_two_segments_amended :
    (∀ (exec : SqlExec) (raw catalog schema : String),
      splitDot raw = [catalog, schema] →
      (getTables exec raw).calls = [inventoryQuery catalog (escapeQuotes schema)])
    ∧ (∀ (exec : SqlExec) (raw : String), (splitDot raw).length ≠ 2 →
        getTables exec raw
          = ⟨[], ["Error: Expected " ++ quoteStr ++ "catalog.schema" ++ quoteStr
              ++ ", got " ++ quoteStr ++ raw ++ quoteStr], []⟩)
    ∧ splitDot "main.default" = ["main", "default"]
    ∧ (splitDot "main").length ≠ 2
    ∧ (splitDot "a.b.c").length ≠ 2
    ∧ (splitDot "").length ≠ 2 := by
  refine ⟨?_, ?_, by decide, by decide, by decide, by decide⟩
  · intro exec raw catalog schema hsplit
    simp only [getTables, hsplit]
    cases exec (inventoryQuery catalog (escapeQuotes schema)) <;> rfl
  · intro exec raw h
    cases hs : splitDot raw with
    | nil => simp only [getTables, hs]
    | cons a t =>
      cases t with
      | nil => simp only [getTables, hs]
      | cons b t2 =>
        cases t2 with
        | nil => exact absurd (by rw [hs]; rfl) h
        | cons c t3 => simp only [getTables, hs]

/-- Witness for C4 as amended, at the spec's own example `main.default`. -/
theorem c4_two_segments_amended_witness :
    (getTables execOkEmpty "main.default").calls
      = [inventoryQuery "main" (escapeQuotes "default")] :=
  c4_two_segments_amended.1 execOkEmpty "main.default" "main" "default" (by decide)

theorem inventoryQuery_occurs_orderBy (c se : String) :
    occursIn "ORDER BY created ASC" (inventoryQuery c se) := by
  refine ⟨"\n                SELECT table_name, created\n                FROM " ++ c
      ++ ".information_schema.tables\n                WHERE table_schema = "
      ++ quoteStr ++ se ++ quoteStr ++ "\n                ",
    "\n            ", ?_⟩
  unfold inventoryQuery
  have hC : ("\n                ORDER BY created ASC\n            " : String)
      = "\n                " ++ "ORDER BY created ASC" ++ "\n            " := by decide
  rw [hC]
  simp [strAppendAssoc]

theorem inventoryQuery_occurs_infoSchema (c se : String) :
    occursIn (c ++ ".information_schema.tables") (inventoryQuery c se) := by
  refine ⟨"\n                SELECT table_name, created\n                FROM ",
    "\n                WHERE table_schema = " ++ quoteStr ++ se ++ quoteStr
      ++ "\n                ORDER BY created ASC\n            ", ?_⟩
  unfold inventoryQuery
  have hB : (".information_schema.tables\n                WHERE table_schema = " : String)
      = ".information_schema.tables" ++ "\n                WHERE table_schema = " := by
    decide
  simp [strAppendAssoc]
  rw [hB, strAppendAssoc]

/-- C5: for every input that resolves into a catalog and a schema segment,
the single statement sent by `get_tables` is the inventory query built from
the unescaped catalog and the quote-escaped schema; that query references
`<catalog>.information_schema.tables` and contains `ORDER BY created ASC`;
every single quote of the schema appears escaped (preceded by a backslash)
in the interpolated segment; and the returned inventory is the executor's
row list in the executor's order (the statement, not client-side sorting,
establishes the order). -/
theorem c5_inventory_statement_shape :
    ∀ (exec : SqlExec) (raw catalog schema : String),
      splitDot raw = [catalog, schema] →
      (getTables exec raw).calls = [inventoryQuery catalog (escapeQuotes schema)]
      ∧ occursIn "ORDER BY created ASC" (inventoryQuery catalog (escapeQuotes schema))
      ∧ occursIn (catalog ++ ".information_schema.tables")
          (inventoryQuery catalog (escapeQuotes schema))
      ∧ quotesEscaped (escapeQuotes schema).data = true
      ∧ ∀ rows, exec (inventoryQuery catalog (escapeQuotes schema)) = .ok rows →
          (getTables exec raw).tables = rows.map fun r => ⟨r.table_name, r.created⟩ := by
  intro exec raw catalog schema hsplit
  refine ⟨?_, inventoryQuery_occurs_orderBy _ _, inventoryQuery_occurs_infoSchema _ _,
    quotesEscaped_escapeChars schema.data, ?_⟩
  · simp only [getTables, hsplit]
    cases exec (inventoryQuery catalog (escapeQuotes schema)) <;> rfl
  · intro rows hok
    simp only [getTables, hsplit, hok]

/-- Witness for C5 at a schema containing a single quote. -/
theorem c5_inventory_statement_shape_witness :
    (getTables execOkEmpty ("my_catalog.my" ++ quoteStr ++ "schema")).calls
      = [inventoryQuery "my_catalog" (escapeQuotes ("my" ++ quoteStr ++ "schema"))]
    ∧ quotesEscaped (escapeQuotes ("my" ++ quoteStr ++ "schema")).data = true := by
  have h := c5_inventory_statement_shape execOkEmpty
      ("my_catalog.my" ++ quoteStr ++ "schema") "my_catalog"
      ("my" ++ quoteStr ++ "schema") (by decide)
  exact ⟨h.1, h.2.2.2.1⟩

/-- Counterexample to C6: with a failing executor, `get_tables` does not
fail — it returns an inventory, and that inventory is the very same empty
list the zero-row success case returns, so the return value does not
distinguish the two. -/
theorem c6_counterexample :
    (getTables execBoom "a.b").tables = (getTables execOkEmpty "a.b").tables
    ∧ (getTables execBoom "a.b").tables = [] :=
  ⟨by decide, by decide⟩

/-- C6 as amended: when the executor fails during the inventory fetch,
`get_tables` prints an error message carrying the executor's detail
verbatim and returns an empty inventory; a zero-row success also returns
an empty inventory but prints nothing — the two cases are distinguishable
only by the printed messages, not by the returned inventory. -/
theorem c6_error_swallowed_amended :
    (∀ (exec : SqlExec) (raw catalog schema d : String),
      splitDot raw = [catalog, schema] →
      exec (inventoryQuery catalog (escapeQuotes schema)) = .error d →
      getTables exec raw
        = ⟨[], ["Error listing tables: " ++ d],
           [inventoryQuery catalog (escapeQuotes schema)]⟩)
    ∧ (∀ (exec : SqlExec) (raw catalog schema : String),
      splitDot raw = [catalog, schema] →
      exec (inventoryQuery catalog (escapeQuotes schema)) = .ok [] →
      getTables exec raw = ⟨[], [], [inventoryQuery catalog (escapeQuotes schema)]⟩) := by
  constructor
  · intro exec raw catalog schema d hsplit herr
    simp only [getTables, hsplit, herr]
  · intro exec raw catalog schema hsplit hok
    simp only [getTables, hsplit, hok]
    rfl

/-- Witness for C6 as amended: the failing and the zero-row executors on
`a.b`. -/
theorem c6_error_swallowed_amended_witness :
    getTables execBoom "a.b"
      = ⟨[], ["Error listing tables: boom"], [inventoryQuery "a" (escapeQuotes "b")]⟩
    ∧ getTables execOkEmpty "a.b"
      = ⟨[], [], [inventoryQuery "a" (escapeQuotes "b")]⟩ :=
  ⟨c6_error_swallowed_amended.1 execBoom "a.b" "a" "b" "boom" (by decide) rfl,
   c6_error_swallowed_amended.2 execOkEmpty "a.b" "a" "b" (by decide) rfl⟩

/-- Counterexample to C7: load inventory `[t1]` under `a.x` and select it,
then reload while the executor fails; the fetch stores the empty inventory
but the selection is not rebuilt — it still holds one flag, and that flag
is still selected, so after this fetch the selection does not hold one
unselected flag per inventory row. -/
theorem c7_counterexample :
    (onLoadClick execBoom
        (toggleCheckbox 0 true
          (onLoadClick execOneTable (setInput "a.x" initialAppState)).1)).1.tables = []
    ∧ (onLoadClick execBoom
        (toggleCheckbox 0 true
          (onLoadClick execOneTable (setInput "a.x" initialAppState)).1)).1.checkboxes
      = [⟨"t1 (2023-01-01)", true⟩] :=
  ⟨by decide, by decide⟩

/-- C7 as amended: a fetch that returns at least one row rebuilds the
selection unconditionally — exactly one unselected flag per inventory row,
with no carry-over of any prior selection; but a fetch that fails or
returns zero rows replaces the stored inventory with the empty list while
leaving the previous selection flags in place. -/
theorem c7_rebuild_amended :
    ∀ (exec : SqlExec) (s : AppState),
      pyStrip s.inputValue ≠ "" →
      ((getTables exec (pyStrip s.inputValue)).tables ≠ [] →
        (onLoadClick exec s).1
          = { s with
                tables := (getTables exec (pyStrip s.inputValue)).tables,
                checkboxes := ((getTables exec (pyStrip s.inputValue)).tables.map
                  fun t => ⟨descOf t, false⟩) })
      ∧ ((getTables exec (pyStrip s.inputValue)).tables = [] →
        (onLoadClick exec s).1 = { s with tables := [] }) := by
  intro exec s h1
  constructor
  · intro h2
    simp [onLoadClick, h1, h2]
  · intro h2
    simp [onLoadClick, h1, h2]

/-- Witness for C7 as amended: a successful one-row load from the fresh
state rebuilds the selection with a single unselected flag. -/
theorem c7_rebuild_amended_witness :
    (onLoadClick execOneTable (setInput "a.x" initialAppState)).1
      = ⟨"a.x", true, [⟨"t1", "2023-01-01"⟩], [⟨"t1 (2023-01-01)", false⟩]⟩ := by
  have h0 := c7_rebuild_amended execOneTable (setInput "a.x" initialAppState) (by decide)
  have h := h0.1 (by decide)
  exact h.trans (by decide)
